import Mathlib

/-
Verification development for `infra/cifuzz/fuzz_target.py`.

The Python module is shallowly embedded as pure Lean functions.  External
effects are modelled explicitly:

* the filesystem is a predicate `fs : String → Bool` (`os.path.exists`);
* `utils.execute` (the reproduce invocations) is an oracle
  `execCode : Nat → Nat` giving the exit code of the k-th call, counted by
  `St.execIdx`;
* `urllib.request.urlopen` and `urlretrieve`+`zipfile.extractall` are
  oracles keyed by URL (`urlopen`, `fetch`);
* the single `subprocess.Popen`/`communicate` of `fuzz` is described by
  `procTime` (wall-clock seconds the child needs), `procReturncode` and
  `procStderr` (raw bytes);
* Python exceptions that the code does not catch are surfaced as
  `Except.error` values of type `PyError`;
* observable side effects (chmod, reproduce invocations, version lookups,
  archive fetches, artifact-pattern searches) are appended to `St.log`.

Response bodies of successful version lookups are raw bytes, and the
`response.read().decode()` of `get_lastest_build_version` — which sits
outside the `try` — is a strict UTF-8 decode that raises on invalid
input; `stderr.decode('ascii')` in `fuzz` is likewise modelled
byte-exactly since the code does not guard it.
-/

/-- `posixpath.join` for two components (also `os.path.join` on posix). -/
def py_startswith (s pre : String) : Bool :=
  pre.data.isPrefixOf s.data

/-- Python `str.endswith`. -/
def py_endswith (s suf : String) : Bool :=
  suf.data.reverse.isPrefixOf s.data.reverse

/-- `posixpath.join(a, b)`: `b` absolute wins; otherwise concatenate with a
separator unless `a` is empty or already ends in one. -/
def posix_join (a b : String) : String :=
  if py_startswith b "/" then b
  else if a.data.isEmpty || py_endswith a "/" then a ++ b
  else a ++ "/" ++ b

/-- `url_join(*argv)` from the source: `posixpath.join` folded over the
argument list. -/
def url_join (parts : List String) : String :=
  match parts with
  | [] => ""
  | a :: rest => rest.foldl posix_join a

/-- `posixpath.dirname`: the prefix up to the last slash, with trailing
slashes stripped unless the head is all slashes. -/
def posix_dirname (p : String) : String :=
  let head := (p.data.reverse.dropWhile (fun c => c ≠ '/')).reverse
  if head ≠ [] ∧ head.any (fun c => c ≠ '/') then
    String.mk ((head.reverse.dropWhile (fun c => c = '/')).reverse)
  else String.mk head

/-- `posixpath.basename`: the suffix after the last slash. -/
def posix_basename (p : String) : String :=
  String.mk ((p.data.reverse.takeWhile (fun c => c ≠ '/')).reverse)

/-- `GCS_BASE_URL` from the source. -/
def GCS_BASE_URL : String := "https://storage.googleapis.com/"

/-- `CLUSTERFUZZ_BUILDS` from the source. -/
def CLUSTERFUZZ_BUILDS : String := "clusterfuzz-builds"

/-- `VERSION_STRING.format(project_name=..., sanitizer=...)`. -/
def version_string_fmt (project_name sanitizer : String) : String :=
  project_name ++ "-" ++ sanitizer ++ "-latest.version"

/-- `CORPUS_ZIP_NAME` from the source. -/
def CORPUS_ZIP_NAME : String := "public.zip"

/-- `SANITIZER` from the source. -/
def SANITIZER : String := "address"

/-- `REPRODUCE_ATTEMPTS` from the source. -/
def REPRODUCE_ATTEMPTS : Nat := 10

/-- `BUFFER_TIME` from the source. -/
def BUFFER_TIME : Nat := 10

/-- `stat.S_IRWXO` (0o007), the mode passed to `os.chmod`. -/
def S_IRWXO : Nat := 7

/-- Python truthiness of an optional string (`if not self.project_name`):
`None` and the empty string are falsy. -/
def optTruthy : Option String → Bool
  | none => false
  | some str => decide (str ≠ "")

/-- The string carried by an optional string (`""` for `None`; only ever
used on truthy values, mirroring how Python uses `self.project_name`). -/
def optStr : Option String → String
  | none => ""
  | some str => str

/-- Uncaught Python exceptions that can cross a function boundary. -/
inductive PyError
  | fileNotFound (path : String)
  | unicodeDecode
  | urlError
deriving DecidableEq, Repr

/-- Outcome of `urllib.request.urlopen`: the code catches only
`urllib.error.HTTPError`; other `URLError`s propagate.  A successful
response carries the raw bytes `response.read()` returns. -/
inductive UrlOpenResult
  | httpError
  | urlError
  | ok (body : List Nat)
deriving DecidableEq, Repr

/-- Outcome of `urlretrieve` + `ZipFile.extractall`: `HTTPError` and
`BadZipFile` are caught; other `URLError`s propagate.  `ok members` lists
the archive member names extracted into the destination. -/
inductive FetchResult
  | httpError
  | urlError
  | badZip
  | ok (members : List String)
deriving DecidableEq, Repr

/-- Observable side effects, in the order they are performed. -/
inductive Effect
  | chmod (path : String) (mode : Nat)
  | reproduce
  | versionLookup (url : String)
  | fetchZip (url : String)
  | artifactLookup
deriving DecidableEq, Repr

/-- The external world: oracles for every effectful primitive. -/
structure Env where
  execCode : Nat → Nat
  urlopen : String → UrlOpenResult
  fetch : String → FetchResult
  procTime : Nat
  procReturncode : Nat
  procStderr : List Nat

/-- Mutable world state threaded through the embedding. -/
structure St where
  fs : String → Bool
  execIdx : Nat
  log : List Effect

/-- Append one effect to the log. -/
def St.addLog (s : St) (e : Effect) : St :=
  { s with log := s.log ++ [e] }

/-- `os.makedirs(p, exist_ok=True)`: mark `p` as existing. -/
def St.mkdir (s : St) (p : String) : St :=
  { s with fs := fun q => if q = p then true else s.fs q }

/-- `ZipFile.extractall`: mark every extracted path as existing. -/
def St.addFiles (s : St) (ps : List String) : St :=
  { s with fs := fun q => if ps.any (fun p => decide (q = p)) then true else s.fs q }

/-- Perform `k` reproduce invocations: bump the call counter and log. -/
def St.advance (s : St) (k : Nat) : St :=
  { s with execIdx := s.execIdx + k,
           log := s.log ++ List.replicate k Effect.reproduce }

/-- `bytes.decode('ascii')`: succeeds iff every byte is below 128. -/
def decode_ascii (bs : List Nat) : Option String :=
  if bs.all (fun b => decide (b < 128)) then
    some (String.mk (bs.map Char.ofNat))
  else none

/-- A UTF-8 continuation byte (`10xxxxxx`). -/
def isUtf8Cont (b : Nat) : Bool := decide (0x80 ≤ b) && decide (b < 0xC0)

/-- Strict UTF-8 decoding of a byte list, as Python's `bytes.decode()`
does: rejects stray continuation bytes, truncated sequences, overlong
encodings (`C0`/`C1` leads, sub-minimal 3- and 4-byte values), surrogate
code points and values above `U+10FFFF`. -/
def utf8_decode_aux : List Nat → Option (List Char)
  | [] => some []
  | b :: rest =>
    if b < 0x80 then
      (utf8_decode_aux rest).map (fun cs => Char.ofNat b :: cs)
    else if b < 0xC2 then none
    else if b < 0xE0 then
      match rest with
      | b1 :: rest1 =>
        if isUtf8Cont b1 then
          (utf8_decode_aux rest1).map
            (fun cs => Char.ofNat ((b - 0xC0) * 0x40 + (b1 - 0x80)) :: cs)
        else none
      | [] => none
    else if b < 0xF0 then
      match rest with
      | b1 :: b2 :: rest2 =>
        if isUtf8Cont b1 && isUtf8Cont b2 then
          if decide (0x800 ≤ (b - 0xE0) * 0x1000 + (b1 - 0x80) * 0x40 + (b2 - 0x80))
              && !(decide (0xD800 ≤ (b - 0xE0) * 0x1000 + (b1 - 0x80) * 0x40 + (b2 - 0x80))
                   && decide ((b - 0xE0) * 0x1000 + (b1 - 0x80) * 0x40 + (b2 - 0x80) ≤ 0xDFFF)) then
            (utf8_decode_aux rest2).map
              (fun cs => Char.ofNat
                ((b - 0xE0) * 0x1000 + (b1 - 0x80) * 0x40 + (b2 - 0x80)) :: cs)
          else none
        else none
      | _ => none
    else if b < 0xF5 then
      match rest with
      | b1 :: b2 :: b3 :: rest3 =>
        if isUtf8Cont b1 && isUtf8Cont b2 && isUtf8Cont b3 then
          if decide (0x10000 ≤ (b - 0xF0) * 0x40000 + (b1 - 0x80) * 0x1000
                + (b2 - 0x80) * 0x40 + (b3 - 0x80))
              && decide ((b - 0xF0) * 0x40000 + (b1 - 0x80) * 0x1000
                + (b2 - 0x80) * 0x40 + (b3 - 0x80) ≤ 0x10FFFF) then
            (utf8_decode_aux rest3).map
              (fun cs => Char.ofNat ((b - 0xF0) * 0x40000 + (b1 - 0x80) * 0x1000
                + (b2 - 0x80) * 0x40 + (b3 - 0x80)) :: cs)
          else none
        else none
      | _ => none
    else none

/-- `bytes.decode()` (UTF-8, strict). -/
def utf8_decode (bs : List Nat) : Option String :=
  (utf8_decode_aux bs).map String.mk

/-- ASCII fragment of Python's regex `\w` (`[a-zA-Z0-9_]`; the Unicode
word characters beyond ASCII are not modelled). -/
def isWordCharA (c : Char) : Bool := c.isAlphanum || c == '_'

/-- The code points Python's regex `\s` matches in text patterns. -/
def pySpaceCodes : List Nat :=
  [9, 10, 11, 12, 13, 28, 29, 30, 31, 32, 0x85, 0xa0, 0x1680,
   0x2000, 0x2001, 0x2002, 0x2003, 0x2004, 0x2005, 0x2006, 0x2007,
   0x2008, 0x2009, 0x200a, 0x2028, 0x2029, 0x202f, 0x205f, 0x3000]

/-- Python's regex `\s` on text. -/
def isPySpace (c : Char) : Bool := pySpaceCodes.contains c.toNat

/-- The literal part of the pattern `\bTest unit written to \.\/([^\s]+)`. -/
def markerStr : List Char := "Test unit written to ./".data

/-- The greedy `[^\s]+` capture: maximal non-whitespace run. -/
def takeRun (cs : List Char) : List Char :=
  cs.takeWhile (fun ch => !(isPySpace ch))

/-- `re.search` for `\bTest unit written to \.\/([^\s]+)`: scan positions
left to right; at each position require a `\b` boundary (the previous
character, tracked in `pw`, is not a word character), the literal marker,
and a nonempty non-whitespace run, else move one character right. -/
def findMarker : List Char → Bool → Option (List Char)
  | [], _ => none
  | c :: rest, pw =>
    if !pw && markerStr.isPrefixOf (c :: rest) then
      if (takeRun ((c :: rest).drop markerStr.length)).isEmpty then
        findMarker rest (isWordCharA c)
      else some (takeRun ((c :: rest).drop markerStr.length))
    else findMarker rest (isWordCharA c)

/-- Declarative counterpart of one match of the pattern at index `i`
(`pw` is whether the character before index 0 is a word character). -/
def matchAtG (cs : List Char) (pw : Bool) (i : Nat) : Bool :=
  (match i with
   | 0 => !pw
   | Nat.succ j => !(isWordCharA (cs.getD j ' '))) &&
  markerStr.isPrefixOf (cs.drop i) &&
  !(takeRun (cs.drop (i + markerStr.length))).isEmpty

/-- The text contains a match of the marker pattern somewhere. -/
def containsMarker (cs : List Char) : Bool :=
  (List.range cs.length).any (fun i => matchAtG cs false i)

/-- The `FuzzTarget` class attributes. -/
structure FuzzTarget where
  target_name : String
  duration : Nat
  target_path : String
  out_dir : String
  project_name : Option String

/-- The `FuzzTarget.__init__` constructor: the target name is the basename
of the target path. -/
def FuzzTarget.init (target_path : String) (duration : Nat) (out_dir : String)
    (project_name : Option String) : FuzzTarget :=
  { target_name := posix_basename target_path, duration, target_path,
    out_dir, project_name }

/-- `os.path.join(self.out_dir, 'oss_fuzz_latest', self.project_name)`. -/
def FuzzTarget.build_dir (t : FuzzTarget) : String :=
  posix_join (posix_join t.out_dir "oss_fuzz_latest") (optStr t.project_name)

/-- `os.path.join(self.out_dir, 'backup_corpus', self.target_name)`. -/
def FuzzTarget.corpus_dir (t : FuzzTarget) : String :=
  posix_join (posix_join t.out_dir "backup_corpus") t.target_name

/-- The project-qualified fuzz target name used in the corpus URL. -/
def project_qualified_name (project target : String) : String :=
  if py_startswith target (project ++ "_") then target
  else (project ++ "_") ++ target

/-- The corpus URL built in `download_latest_corpus`. -/
def FuzzTarget.corpus_url (t : FuzzTarget) : String :=
  url_join [GCS_BASE_URL,
    optStr t.project_name ++ "-backup.clusterfuzz-external.appspot.com/corpus/libFuzzer/",
    project_qualified_name (optStr t.project_name) t.target_name,
    CORPUS_ZIP_NAME]

/-- `FuzzTarget.get_test_case`. -/
def FuzzTarget.get_test_case (t : FuzzTarget) (error_string : String) : Option String :=
  match findMarker error_string.data false with
  | some run => some (posix_join t.out_dir (String.mk run))
  | none => none

/-- The `for _ in range(REPRODUCE_ATTEMPTS)` loop of `is_reproducible`:
call `utils.execute`; a truthy exit code returns `True` at once. -/
def reproduce_loop (env : Env) : Nat → St → Bool × St
  | 0, s => (false, s)
  | Nat.succ n, s =>
    let code := env.execCode s.execIdx
    let s1 : St := { s with execIdx := s.execIdx + 1,
                            log := s.log ++ [Effect.reproduce] }
    if code = 0 then reproduce_loop env n s1 else (true, s1)

/-- `FuzzTarget.is_reproducible(test_case, target_path)`.  A missing test
case returns `False`; if `target_path` exists the target binary inside it
is chmodded (raising `FileNotFoundError` when the binary is absent); then
up to `REPRODUCE_ATTEMPTS` reproduce invocations run. -/
def FuzzTarget.is_reproducible (env : Env) (t : FuzzTarget)
    (test_case target_path : String) (s : St) : Except PyError Bool × St :=
  if s.fs test_case = false then (Except.ok false, s)
  else if s.fs target_path then
    if s.fs (posix_join target_path t.target_name) then
      (Except.ok (reproduce_loop env REPRODUCE_ATTEMPTS
          (s.addLog (Effect.chmod (posix_join target_path t.target_name) S_IRWXO))).1,
       (reproduce_loop env REPRODUCE_ATTEMPTS
          (s.addLog (Effect.chmod (posix_join target_path t.target_name) S_IRWXO))).2)
    else
      (Except.error (PyError.fileNotFound (posix_join target_path t.target_name)), s)
  else
    (Except.ok (reproduce_loop env REPRODUCE_ATTEMPTS s).1,
     (reproduce_loop env REPRODUCE_ATTEMPTS s).2)

/-- The version-lookup URL built in `get_lastest_build_version`. -/
def FuzzTarget.version_url (t : FuzzTarget) : String :=
  url_join [GCS_BASE_URL, CLUSTERFUZZ_BUILDS, optStr t.project_name,
            version_string_fmt (optStr t.project_name) SANITIZER]

/-- The build-archive URL built in `download_oss_fuzz_build`. -/
def FuzzTarget.build_url (t : FuzzTarget) (ver : String) : String :=
  url_join [GCS_BASE_URL, CLUSTERFUZZ_BUILDS, optStr t.project_name, ver]

/-- `FuzzTarget.get_lastest_build_version` (name as in the source).  The
`response.read().decode()` is outside the `try`, so a body that is not
valid UTF-8 raises an uncaught `UnicodeDecodeError`. -/
def FuzzTarget.get_lastest_build_version (env : Env) (t : FuzzTarget) (s : St) :
    Except PyError (Option String) × St :=
  if optTruthy t.project_name = false then (Except.ok none, s)
  else
    match env.urlopen t.version_url with
    | UrlOpenResult.httpError =>
      (Except.ok none, s.addLog (Effect.versionLookup t.version_url))
    | UrlOpenResult.urlError =>
      (Except.error PyError.urlError, s.addLog (Effect.versionLookup t.version_url))
    | UrlOpenResult.ok body =>
      match utf8_decode body with
      | none =>
        (Except.error PyError.unicodeDecode,
         s.addLog (Effect.versionLookup t.version_url))
      | some ver =>
        (Except.ok (some ver), s.addLog (Effect.versionLookup t.version_url))

/-- Module-level `download_and_unpack_zip(http_url, out_dir)`. -/
def download_and_unpack_zip (env : Env) (http_url out_dir : String) (s : St) :
    Except PyError (Option String) × St :=
  if s.fs out_dir = false then (Except.ok none, s)
  else
    match env.fetch http_url with
    | FetchResult.httpError =>
      (Except.ok none, s.addLog (Effect.fetchZip http_url))
    | FetchResult.urlError =>
      (Except.error PyError.urlError, s.addLog (Effect.fetchZip http_url))
    | FetchResult.badZip =>
      (Except.ok none, s.addLog (Effect.fetchZip http_url))
    | FetchResult.ok members =>
      (Except.ok (some out_dir),
       (s.addLog (Effect.fetchZip http_url)).addFiles
         (members.map (fun m => posix_join out_dir m)))

/-- `FuzzTarget.download_oss_fuzz_build`. -/
def FuzzTarget.download_oss_fuzz_build (env : Env) (t : FuzzTarget) (s : St) :
    Except PyError (Option String) × St :=
  if s.fs t.out_dir = false then (Except.ok none, s)
  else if optTruthy t.project_name = false then (Except.ok none, s)
  else if s.fs (posix_join t.build_dir t.target_name) then
    (Except.ok (some t.build_dir), s)
  else
    match t.get_lastest_build_version env (s.mkdir t.build_dir) with
    | (Except.error e, s2) => (Except.error e, s2)
    | (Except.ok latest_build_str, s2) =>
      if optTruthy latest_build_str = false then (Except.ok none, s2)
      else
        download_and_unpack_zip env (t.build_url (optStr latest_build_str))
          t.build_dir s2

/-- `FuzzTarget.download_latest_corpus`. -/
def FuzzTarget.download_latest_corpus (env : Env) (t : FuzzTarget) (s : St) :
    Except PyError (Option String) × St :=
  if optTruthy t.project_name = false then (Except.ok none, s)
  else if s.fs t.out_dir = false then (Except.ok none, s)
  else
    download_and_unpack_zip env t.corpus_url t.corpus_dir (s.mkdir t.corpus_dir)

/-- `FuzzTarget.check_reproducibility_and_regression(test_case)`. -/
def FuzzTarget.check_reproducibility_and_regression (env : Env) (t : FuzzTarget)
    (test_case : String) (s : St) : Except PyError Bool × St :=
  match t.is_reproducible env test_case (posix_dirname t.target_path) s with
  | (Except.error e, s1) => (Except.error e, s1)
  | (Except.ok rip, s1) =>
    if optTruthy t.project_name = false then (Except.ok rip, s1)
    else if rip = false then (Except.ok false, s1)
    else
      match t.download_oss_fuzz_build env s1 with
      | (Except.error e, s2) => (Except.error e, s2)
      | (Except.ok none, s2) => (Except.ok false, s2)
      | (Except.ok (some dir), s2) =>
        match t.is_reproducible env test_case dir s2 with
        | (Except.error e, s3) => (Except.error e, s3)
        | (Except.ok rio, s3) => (Except.ok (rip && !rio), s3)

/-- `FuzzTarget.fuzz`: corpus fetch, bounded-time child process, then
crash classification.  `communicate(timeout=duration + BUFFER_TIME)`
raises `TimeoutExpired` iff the child needs more than that bound. -/
def FuzzTarget.fuzz (env : Env) (t : FuzzTarget) (s : St) :
    Except PyError (Option String × Option String) × St :=
  match t.download_latest_corpus env s with
  | (Except.error e, s1) => (Except.error e, s1)
  | (Except.ok _corpus, s1) =>
    if t.duration + BUFFER_TIME < env.procTime then
      (Except.ok (none, none), s1)
    else if env.procReturncode = 0 then
      (Except.ok (none, none), s1)
    else
      match decode_ascii env.procStderr with
      | none => (Except.error PyError.unicodeDecode, s1)
      | some err_str =>
        match t.get_test_case err_str with
        | none => (Except.ok (none, none), s1.addLog Effect.artifactLookup)
        | some test_case =>
          match t.check_reproducibility_and_regression env test_case
              (s1.addLog Effect.artifactLookup) with
          | (Except.error e, s3) => (Except.error e, s3)
          | (Except.ok true, s3) => (Except.ok (some test_case, some err_str), s3)
          | (Except.ok false, s3) => (Except.ok (none, none), s3)

/-- Index (relative to `i`) of the first nonzero exit code among the next
`n` oracle answers. -/
def firstHit (f : Nat → Nat) : Nat → Nat → Option Nat
  | _, 0 => none
  | i, Nat.succ n =>
    if f i = 0 then (firstHit f (i + 1) n).map (fun m => m + 1)
    else some 0

lemma St.advance_zero (s : St) : s.advance 0 = s := by
  simp [St.advance]

lemma St.advance_advance (s : St) (a b : Nat) :
    (s.advance a).advance b = s.advance (a + b) := by
  unfold St.advance
  rw [List.replicate_add, Nat.add_assoc, List.append_assoc]

lemma reproduce_loop_eq (env : Env) :
    ∀ (n : Nat) (s : St),
      reproduce_loop env n s =
        (match firstHit env.execCode s.execIdx n with
         | some m => (true, s.advance (m + 1))
         | none => (false, s.advance n)) := by
  intro n
  induction n with
  | zero => intro s; simp [reproduce_loop, firstHit, St.advance_zero]
  | succ n ih =>
    intro s
    show reproduce_loop env (n + 1) s = _
    rw [reproduce_loop]
    by_cases h : env.execCode s.execIdx = 0
    · rw [if_pos h, ih]
      have hidx : ({ s with execIdx := s.execIdx + 1,
                            log := s.log ++ [Effect.reproduce] } : St) = s.advance 1 := rfl
      rw [hidx]
      show (match firstHit env.execCode (s.advance 1).execIdx n with
            | some m => (true, (s.advance 1).advance (m + 1))
            | none => (false, (s.advance 1).advance n)) = _
      have hi1 : (s.advance 1).execIdx = s.execIdx + 1 := rfl
      rw [hi1]
      have hfh : firstHit env.execCode s.execIdx (n + 1)
          = (firstHit env.execCode (s.execIdx + 1) n).map (fun m => m + 1) := by
        rw [firstHit, if_pos h]
      rw [hfh]
      cases firstHit env.execCode (s.execIdx + 1) n with
      | none =>
        simp [St.advance_advance, Nat.add_comm]
      | some m =>
        simp [St.advance_advance, Nat.add_comm]
    · rw [if_neg h]
      have hfh : firstHit env.execCode s.execIdx (n + 1) = some 0 := by
        rw [firstHit, if_neg h]
      rw [hfh]
      rfl

lemma firstHit_some (f : Nat → Nat) :
    ∀ (n i m : Nat), firstHit f i n = some m →
      m < n ∧ f (i + m) ≠ 0 ∧ ∀ k, k < m → f (i + k) = 0 := by
  intro n
  induction n with
  | zero => intro i m h; simp [firstHit] at h
  | succ n ih =>
    intro i m h
    rw [firstHit] at h
    by_cases h0 : f i = 0
    · rw [if_pos h0] at h
      cases hrec : firstHit f (i + 1) n with
      | none => rw [hrec] at h; simp at h
      | some m' =>
        rw [hrec] at h
        have h : m' + 1 = m := by simpa using h
        obtain ⟨hm1, hm2, hm3⟩ := ih (i + 1) m' hrec
        refine ⟨?_, ?_, ?_⟩
        · omega
        · have : i + m = i + 1 + m' := by omega
          rw [this]; exact hm2
        · intro k hk
          cases k with
          | zero => simpa using h0
          | succ j =>
            have : i + (j + 1) = i + 1 + j := by omega
            rw [this]
            exact hm3 j (by omega)
    · rw [if_neg h0] at h
      simp only [Option.some.injEq] at h
      subst h
      exact ⟨Nat.succ_pos n, by simpa using h0, fun k hk => absurd hk (Nat.not_lt_zero k)⟩

lemma firstHit_none (f : Nat → Nat) :
    ∀ (n i : Nat), firstHit f i n = none ↔ ∀ k, k < n → f (i + k) = 0 := by
  intro n
  induction n with
  | zero => intro i; simp [firstHit]
  | succ n ih =>
    intro i
    rw [firstHit]
    by_cases h0 : f i = 0
    · rw [if_pos h0]
      constructor
      · intro h k hk
        have hrec : firstHit f (i + 1) n = none := by
          cases hfh : firstHit f (i + 1) n with
          | none => rfl
          | some m => rw [hfh] at h; simp at h
        cases k with
        | zero => simpa using h0
        | succ j =>
          have : i + (j + 1) = i + 1 + j := by omega
          rw [this]
          exact (ih (i + 1)).mp hrec j (by omega)
      · intro h
        have : firstHit f (i + 1) n = none := by
          apply (ih (i + 1)).mpr
          intro k hk
          have : i + 1 + k = i + (k + 1) := by omega
          rw [this]
          exact h (k + 1) (by omega)
        rw [this]; rfl
    · rw [if_neg h0]
      constructor
      · intro h; simp at h
      · intro h
        exact absurd (by simpa using h 0 (Nat.succ_pos n)) h0

lemma firstHit_of_first (f : Nat → Nat) :
    ∀ (n i m : Nat), m < n → f (i + m) ≠ 0 → (∀ k, k < m → f (i + k) = 0) →
      firstHit f i n = some m := by
  intro n
  induction n with
  | zero => intro i m hm; omega
  | succ n ih =>
    intro i m hm hnz hz
    rw [firstHit]
    cases m with
    | zero =>
      rw [if_neg (by simpa using hnz)]
    | succ m' =>
      have h0 : f i = 0 := by simpa using hz 0 (Nat.succ_pos m')
      rw [if_pos h0]
      have : firstHit f (i + 1) n = some m' := by
        apply ih (i + 1) m' (by omega)
        · have : i + 1 + m' = i + (m' + 1) := by omega
          rw [this]; exact hnz
        · intro k hk
          have : i + 1 + k = i + (k + 1) := by omega
          rw [this]
          exact hz (k + 1) (by omega)
      rw [this]
      rfl

/-- Full characterisation of `is_reproducible` when the chmod cannot
raise (the test case exists, and the binary is present whenever the build
directory is). -/
lemma is_reproducible_run (env : Env) (t : FuzzTarget) (tc tp : String) (s : St)
    (h1 : s.fs tc = true)
    (h2 : s.fs tp = true → s.fs (posix_join tp t.target_name) = true) :
    t.is_reproducible env tc tp s =
      (let pre := if s.fs tp then
          s.addLog (Effect.chmod (posix_join tp t.target_name) S_IRWXO)
        else s
       match firstHit env.execCode s.execIdx REPRODUCE_ATTEMPTS with
       | some m => (Except.ok true, pre.advance (m + 1))
       | none => (Except.ok false, pre.advance REPRODUCE_ATTEMPTS)) := by
  by_cases htp : s.fs tp = true
  · have hbin := h2 htp
    simp only [FuzzTarget.is_reproducible, h1, htp, hbin, Bool.true_eq_false, if_false,
      if_true, reproduce_loop_eq]
    have hidx : (s.addLog (Effect.chmod (posix_join tp t.target_name) S_IRWXO)).execIdx
        = s.execIdx := rfl
    rw [hidx]
    cases firstHit env.execCode s.execIdx REPRODUCE_ATTEMPTS <;> simp
  · have htp' : s.fs tp = false := by
      cases hv : s.fs tp
      · rfl
      · exact absurd hv htp
    simp only [FuzzTarget.is_reproducible, h1, htp', Bool.true_eq_false, Bool.false_eq_true,
      if_false, reproduce_loop_eq]
    cases firstHit env.execCode s.execIdx REPRODUCE_ATTEMPTS <;> simp

lemma download_and_unpack_zip_ok (env : Env)
    (h2 : ∀ u, env.fetch u ≠ FetchResult.urlError) (u d : String) (s : St) :
    ∃ v, (download_and_unpack_zip env u d s).1 = Except.ok v := by
  unfold download_and_unpack_zip
  split
  · exact ⟨none, rfl⟩
  · cases hf : env.fetch u with
    | httpError => exact ⟨none, by simp [hf]⟩
    | urlError => exact absurd hf (h2 u)
    | badZip => exact ⟨none, by simp [hf]⟩
    | ok members => exact ⟨some d, by simp [hf]⟩

lemma download_and_unpack_zip_mono (env : Env) (u d : String) (s : St) (p : String)
    (h : s.fs p = true) : (download_and_unpack_zip env u d s).2.fs p = true := by
  unfold download_and_unpack_zip
  split
  · exact h
  · cases hf : env.fetch u with
    | httpError => simpa [hf, St.addLog] using h
    | urlError => simpa [hf, St.addLog] using h
    | badZip => simpa [hf, St.addLog] using h
    | ok members =>
      simp only [hf, St.addLog, St.addFiles]
      split
      · rfl
      · exact h

lemma download_and_unpack_zip_log (env : Env) (u d : String) (s : St) :
    (download_and_unpack_zip env u d s).2.log = s.log ∨
    (download_and_unpack_zip env u d s).2.log = s.log ++ [Effect.fetchZip u] := by
  unfold download_and_unpack_zip
  split
  · exact Or.inl rfl
  · cases hf : env.fetch u with
    | httpError => exact Or.inr (by simp [hf, St.addLog])
    | urlError => exact Or.inr (by simp [hf, St.addLog])
    | badZip => exact Or.inr (by simp [hf, St.addLog])
    | ok members => exact Or.inr (by simp [hf, St.addLog, St.addFiles])

lemma download_and_unpack_zip_success (env : Env) (u d : String) (s : St) (x : String)
    (s1 : St) (h : download_and_unpack_zip env u d s = (Except.ok (some x), s1)) :
    x = d ∧ (∀ p, s.fs p = true → s1.fs p = true) := by
  unfold download_and_unpack_zip at h
  split at h
  · simp at h
  · cases hf : env.fetch u with
    | httpError => rw [hf] at h; simp at h
    | urlError => rw [hf] at h; simp at h
    | badZip => rw [hf] at h; simp at h
    | ok members =>
      rw [hf] at h
      have hx : x = d ∧ s1 = (s.addLog (Effect.fetchZip u)).addFiles
          (members.map (fun m => posix_join d m)) := by
        constructor
        · have := congrArg Prod.fst h
          simpa using this.symm
        · have := congrArg Prod.snd h
          simpa using this.symm
      obtain ⟨hx1, hx2⟩ := hx
      subst hx2
      refine ⟨hx1, fun p hp => ?_⟩
      simp only [St.addLog, St.addFiles]
      split
      · rfl
      · exact hp

lemma download_and_unpack_zip_binary (env : Env) (t : FuzzTarget)
    (h5 : ∀ u ms, env.fetch u = FetchResult.ok ms → t.target_name ∈ ms)
    (u d : String) (s : St) (x : String) (s1 : St)
    (h : download_and_unpack_zip env u d s = (Except.ok (some x), s1)) :
    s1.fs (posix_join d t.target_name) = true := by
  unfold download_and_unpack_zip at h
  split at h
  · simp at h
  · cases hf : env.fetch u with
    | httpError => rw [hf] at h; simp at h
    | urlError => rw [hf] at h; simp at h
    | badZip => rw [hf] at h; simp at h
    | ok members =>
      rw [hf] at h
      have hx2 : s1 = (s.addLog (Effect.fetchZip u)).addFiles
          (members.map (fun m => posix_join d m)) := by
        have := congrArg Prod.snd h
        simpa using this.symm
      subst hx2
      simp only [St.addLog, St.addFiles]
      have hmem : t.target_name ∈ members := h5 u members hf
      have : (members.map (fun m => posix_join d m)).any
          (fun p => decide (posix_join d t.target_name = p)) = true := by
        rw [List.any_eq_true]
        exact ⟨posix_join d t.target_name, List.mem_map_of_mem _ hmem, by simp⟩
      rw [if_pos this]

lemma get_lastest_build_version_ok (env : Env) (t : FuzzTarget)
    (h1 : ∀ u, env.urlopen u ≠ UrlOpenResult.urlError)
    (h1b : ∀ u body, env.urlopen u = UrlOpenResult.ok body →
      utf8_decode body ≠ none) (s : St) :
    ∃ v, (t.get_lastest_build_version env s).1 = Except.ok v := by
  unfold FuzzTarget.get_lastest_build_version
  split
  · exact ⟨none, rfl⟩
  · cases hu : env.urlopen t.version_url with
    | httpError => exact ⟨none, by simp [hu]⟩
    | urlError => exact absurd hu (h1 _)
    | ok body =>
      cases hd : utf8_decode body with
      | none => exact absurd hd (h1b _ _ hu)
      | some ver => exact ⟨some ver, by simp [hu, hd]⟩

lemma get_lastest_build_version_fs (env : Env) (t : FuzzTarget) (s : St) :
    (t.get_lastest_build_version env s).2.fs = s.fs := by
  unfold FuzzTarget.get_lastest_build_version
  split
  · rfl
  · split
    · rfl
    · rfl
    · split <;> rfl

lemma download_oss_fuzz_build_ok (env : Env) (t : FuzzTarget)
    (h1 : ∀ u, env.urlopen u ≠ UrlOpenResult.urlError)
    (h1b : ∀ u body, env.urlopen u = UrlOpenResult.ok body →
      utf8_decode body ≠ none)
    (h2 : ∀ u, env.fetch u ≠ FetchResult.urlError) (s : St) :
    ∃ v, (t.download_oss_fuzz_build env s).1 = Except.ok v := by
  unfold FuzzTarget.download_oss_fuzz_build
  split
  · exact ⟨none, rfl⟩
  · split
    · exact ⟨none, rfl⟩
    · split
      · exact ⟨some t.build_dir, rfl⟩
      · obtain ⟨v, hv⟩ :=
          get_lastest_build_version_ok env t h1 h1b (s.mkdir t.build_dir)
        split
        · next e s2 heq =>
            rw [heq] at hv
            simp at hv
        · next latest s2 heq =>
            split
            · exact ⟨none, rfl⟩
            · exact download_and_unpack_zip_ok env h2
                (t.build_url (optStr latest)) t.build_dir s2

lemma download_latest_corpus_ok (env : Env) (t : FuzzTarget)
    (h2 : ∀ u, env.fetch u ≠ FetchResult.urlError) (s : St) :
    ∃ v, (t.download_latest_corpus env s).1 = Except.ok v := by
  unfold FuzzTarget.download_latest_corpus
  split
  · exact ⟨none, rfl⟩
  · split
    · exact ⟨none, rfl⟩
    · exact download_and_unpack_zip_ok env h2 t.corpus_url t.corpus_dir
        (s.mkdir t.corpus_dir)

lemma download_latest_corpus_mono (env : Env) (t : FuzzTarget) (s : St) (p : String)
    (h : s.fs p = true) : (t.download_latest_corpus env s).2.fs p = true := by
  unfold FuzzTarget.download_latest_corpus
  split
  · exact h
  · split
    · exact h
    · apply download_and_unpack_zip_mono
      simp only [St.mkdir]
      split
      · rfl
      · exact h

lemma download_latest_corpus_log (env : Env) (t : FuzzTarget) (s : St) :
    (t.download_latest_corpus env s).2.log = s.log ∨
    (t.download_latest_corpus env s).2.log = s.log ++ [Effect.fetchZip t.corpus_url] := by
  unfold FuzzTarget.download_latest_corpus
  split
  · exact Or.inl rfl
  · split
    · exact Or.inl rfl
    · have := download_and_unpack_zip_log env t.corpus_url t.corpus_dir
        (s.mkdir t.corpus_dir)
      simpa [St.mkdir] using this

lemma bool_true_of_not_false {b : Bool} (h : ¬ b = false) : b = true := by
  cases b
  · exact absurd rfl h
  · rfl

lemma reproduce_loop_fs (env : Env) (n : Nat) (s : St) :
    (reproduce_loop env n s).2.fs = s.fs := by
  rw [reproduce_loop_eq]
  cases firstHit env.execCode s.execIdx n <;> rfl

lemma is_reproducible_fs (env : Env) (t : FuzzTarget) (tc tp : String) (s : St) :
    (t.is_reproducible env tc tp s).2.fs = s.fs := by
  unfold FuzzTarget.is_reproducible
  split
  · rfl
  · split
    · split
      · rw [reproduce_loop_fs]; rfl
      · rfl
    · rw [reproduce_loop_fs]

lemma is_reproducible_ok (env : Env) (t : FuzzTarget) (tc tp : String) (s : St)
    (hsafe : s.fs tp = true → s.fs (posix_join tp t.target_name) = true) :
    ∃ b, (t.is_reproducible env tc tp s).1 = Except.ok b := by
  unfold FuzzTarget.is_reproducible
  split
  · exact ⟨false, rfl⟩
  · split
    · rw [if_pos (hsafe (by assumption))]
      exact ⟨_, rfl⟩
    · exact ⟨_, rfl⟩

lemma download_oss_fuzz_build_success (env : Env) (t : FuzzTarget) (s : St)
    (d : String) (s1 : St)
    (h : t.download_oss_fuzz_build env s = (Except.ok (some d), s1)) :
    d = t.build_dir ∧ optTruthy t.project_name = true ∧
    s.fs t.out_dir = true ∧ (∀ p, s.fs p = true → s1.fs p = true) := by
  unfold FuzzTarget.download_oss_fuzz_build at h
  split at h
  · simp at h
  · have hout : s.fs t.out_dir = true := bool_true_of_not_false (by assumption)
    split at h
    · simp at h
    · have hproj : optTruthy t.project_name = true :=
        bool_true_of_not_false (by assumption)
      split at h
      · have hd : d = t.build_dir ∧ s1 = s := by
          constructor
          · have := congrArg Prod.fst h
            simpa using this.symm
          · have := congrArg Prod.snd h
            simpa using this.symm
        obtain ⟨hd1, hd2⟩ := hd
        subst hd2
        exact ⟨hd1, hproj, hout, fun p hp => hp⟩
      · cases hver : t.get_lastest_build_version env (s.mkdir t.build_dir) with
        | mk res s2 =>
          rw [hver] at h
          cases res with
          | error e => simp at h
          | ok latest =>
            simp only at h
            by_cases hlat : optTruthy latest = false
            · rw [if_pos hlat] at h
              simp at h
            · rw [if_neg hlat] at h
              obtain ⟨hd1, hmono⟩ :=
                download_and_unpack_zip_success env (t.build_url (optStr latest))
                  t.build_dir s2 d s1 h
              refine ⟨hd1, hproj, hout, fun p hp => ?_⟩
              apply hmono
              have hfs2 : s2.fs = (s.mkdir t.build_dir).fs := by
                have := get_lastest_build_version_fs env t (s.mkdir t.build_dir)
                rw [hver] at this
                exact this
              rw [hfs2]
              simp only [St.mkdir]
              split
              · rfl
              · exact hp

lemma download_oss_fuzz_build_binary (env : Env) (t : FuzzTarget) (s : St)
    (d : String) (s1 : St)
    (h5 : ∀ u ms, env.fetch u = FetchResult.ok ms → t.target_name ∈ ms)
    (h : t.download_oss_fuzz_build env s = (Except.ok (some d), s1)) :
    s1.fs (posix_join d t.target_name) = true := by
  have hd := (download_oss_fuzz_build_success env t s d s1 h).1
  subst hd
  unfold FuzzTarget.download_oss_fuzz_build at h
  split at h
  · simp at h
  · split at h
    · simp at h
    · split at h
      · have hbin : s.fs (posix_join t.build_dir t.target_name) = true := by
          assumption
        have hs1 : s1 = s := by
          have := congrArg Prod.snd h
          simpa using this.symm
        rw [hs1]
        exact hbin
      · cases hver : t.get_lastest_build_version env (s.mkdir t.build_dir) with
        | mk res s2 =>
          rw [hver] at h
          cases res with
          | error e => simp at h
          | ok latest =>
            simp only at h
            by_cases hlat : optTruthy latest = false
            · rw [if_pos hlat] at h
              simp at h
            · rw [if_neg hlat] at h
              exact download_and_unpack_zip_binary env t h5
                (t.build_url (optStr latest)) t.build_dir s2 t.build_dir s1 h

lemma check_reproducibility_ok (env : Env) (t : FuzzTarget) (tc : String) (s : St)
    (h1 : ∀ u, env.urlopen u ≠ UrlOpenResult.urlError)
    (h1b : ∀ u body, env.urlopen u = UrlOpenResult.ok body →
      utf8_decode body ≠ none)
    (h2 : ∀ u, env.fetch u ≠ FetchResult.urlError)
    (h5 : ∀ u ms, env.fetch u = FetchResult.ok ms → t.target_name ∈ ms)
    (hbin : s.fs (posix_join (posix_dirname t.target_path) t.target_name) = true) :
    ∃ b, (t.check_reproducibility_and_regression env tc s).1 = Except.ok b := by
  unfold FuzzTarget.check_reproducibility_and_regression
  obtain ⟨b1, hb1⟩ := is_reproducible_ok env t tc (posix_dirname t.target_path) s
    (fun _ => hbin)
  split
  case _ e s1 heq =>
    rw [heq] at hb1
    simp at hb1
  case _ rip s1 heq =>
    split
    · exact ⟨rip, rfl⟩
    · split
      · exact ⟨false, rfl⟩
      · obtain ⟨v, hv⟩ := download_oss_fuzz_build_ok env t h1 h1b h2 s1
        split
        case _ e s2 heq2 =>
          rw [heq2] at hv
          simp at hv
        case _ s2 heq2 =>
          exact ⟨false, rfl⟩
        case _ dir s2 heq2 =>
          have hbin2 : s2.fs (posix_join dir t.target_name) = true :=
            download_oss_fuzz_build_binary env t s1 dir s2 h5 heq2
          obtain ⟨b2, hb2⟩ := is_reproducible_ok env t tc dir s2 (fun _ => hbin2)
          split
          case _ e s3 heq3 =>
            rw [heq3] at hb2
            simp at hb2
          case _ rio s3 heq3 =>
            exact ⟨rip && !rio, rfl⟩

lemma fuzz_ok (env : Env) (t : FuzzTarget) (s : St)
    (h1 : ∀ u, env.urlopen u ≠ UrlOpenResult.urlError)
    (h1b : ∀ u body, env.urlopen u = UrlOpenResult.ok body →
      utf8_decode body ≠ none)
    (h2 : ∀ u, env.fetch u ≠ FetchResult.urlError)
    (h3 : env.procStderr.all (fun b => decide (b < 128)) = true)
    (h5 : ∀ u ms, env.fetch u = FetchResult.ok ms → t.target_name ∈ ms)
    (hbin : s.fs (posix_join (posix_dirname t.target_path) t.target_name) = true) :
    ∃ v, (t.fuzz env s).1 = Except.ok v := by
  unfold FuzzTarget.fuzz
  obtain ⟨c, hc⟩ := download_latest_corpus_ok env t h2 s
  split
  case _ e s1 heq =>
    rw [heq] at hc
    simp at hc
  case _ c1 s1 heq =>
    have hbin1 : s1.fs (posix_join (posix_dirname t.target_path)
        t.target_name) = true := by
      have := download_latest_corpus_mono env t s _ hbin
      rw [heq] at this
      exact this
    split
    · exact ⟨(none, none), rfl⟩
    · split
      · exact ⟨(none, none), rfl⟩
      · split
        · next hdec =>
            rw [show decode_ascii env.procStderr
                = some (String.mk (env.procStderr.map Char.ofNat)) from by
              unfold decode_ascii; rw [if_pos h3]] at hdec
            exact absurd hdec (by simp)
        · next err_str hdec =>
            split
            · exact ⟨(none, none), rfl⟩
            · next test_case hgtc =>
                split
                · next e s3 heq3 =>
                    obtain ⟨b2, hb2⟩ := check_reproducibility_ok env t test_case
                      (s1.addLog Effect.artifactLookup) h1 h1b h2 h5 hbin1
                    rw [heq3] at hb2
                    simp at hb2
                · exact ⟨_, rfl⟩
                · exact ⟨(none, none), rfl⟩

lemma markerStr_ne_nil : markerStr ≠ [] := by decide

lemma isPrefixOf_nil_false {l : List Char} (h : l ≠ []) :
    l.isPrefixOf ([] : List Char) = false := by
  cases l with
  | nil => exact absurd rfl h
  | cons a as => rfl

lemma matchAtG_nil (pw : Bool) (i : Nat) : matchAtG [] pw i = false := by
  unfold matchAtG
  rw [List.drop_nil, isPrefixOf_nil_false markerStr_ne_nil]
  simp

lemma matchAtG_cons (c : Char) (rest : List Char) (pw : Bool) (i : Nat) :
    matchAtG (c :: rest) pw (i + 1) = matchAtG rest (isWordCharA c) i := by
  have hdrop : (c :: rest).drop (i + 1 + markerStr.length)
      = rest.drop (i + markerStr.length) := by
    have h : i + 1 + markerStr.length = (i + markerStr.length) + 1 := by omega
    rw [h, List.drop_succ_cons]
  cases i with
  | zero =>
    unfold matchAtG
    rw [hdrop]
    rfl
  | succ j =>
    unfold matchAtG
    rw [hdrop]
    rfl

lemma matchAtG_zero_cons (c : Char) (rest : List Char) (pw : Bool) :
    matchAtG (c :: rest) pw 0
      = (!pw && markerStr.isPrefixOf (c :: rest)
         && !(takeRun ((c :: rest).drop markerStr.length)).isEmpty) := rfl

lemma findMarker_none (cs : List Char) :
    ∀ pw, findMarker cs pw = none → ∀ i, matchAtG cs pw i = false := by
  induction cs with
  | nil => intro pw _ i; exact matchAtG_nil pw i
  | cons c rest ih =>
    intro pw h i
    rw [findMarker] at h
    by_cases hA : (!pw && markerStr.isPrefixOf (c :: rest)) = true
    · rw [if_pos hA] at h
      by_cases hrun : (takeRun ((c :: rest).drop markerStr.length)).isEmpty = true
      · rw [if_pos hrun] at h
        cases i with
        | zero => rw [matchAtG_zero_cons, hrun]; simp
        | succ j => rw [matchAtG_cons]; exact ih _ h j
      · rw [if_neg hrun] at h
        simp at h
    · rw [if_neg hA] at h
      cases i with
      | zero =>
        have hA' : (!pw && markerStr.isPrefixOf (c :: rest)) = false := by
          cases hv : (!pw && markerStr.isPrefixOf (c :: rest))
          · rfl
          · exact absurd hv hA
        rw [matchAtG_zero_cons, hA', Bool.false_and]
      | succ j =>
        rw [matchAtG_cons]
        exact ih _ h j

lemma findMarker_some (cs : List Char) :
    ∀ pw run, findMarker cs pw = some run →
      ∃ i, matchAtG cs pw i = true ∧
           run = takeRun (cs.drop (i + markerStr.length)) := by
  induction cs with
  | nil => intro pw run h; simp [findMarker] at h
  | cons c rest ih =>
    intro pw run h
    rw [findMarker] at h
    have hdropsh : ∀ i : Nat, (c :: rest).drop (i + 1 + markerStr.length)
        = rest.drop (i + markerStr.length) := by
      intro i
      have hh : i + 1 + markerStr.length = (i + markerStr.length) + 1 := by omega
      rw [hh, List.drop_succ_cons]
    by_cases hA : (!pw && markerStr.isPrefixOf (c :: rest)) = true
    · rw [if_pos hA] at h
      by_cases hrun : (takeRun ((c :: rest).drop markerStr.length)).isEmpty = true
      · rw [if_pos hrun] at h
        obtain ⟨i, hm, hr⟩ := ih _ _ h
        refine ⟨i + 1, ?_, ?_⟩
        · rw [matchAtG_cons]; exact hm
        · rw [hdropsh i]; exact hr
      · rw [if_neg hrun] at h
        have hrun' : (takeRun ((c :: rest).drop markerStr.length)).isEmpty = false := by
          cases hv : (takeRun ((c :: rest).drop markerStr.length)).isEmpty
          · rfl
          · exact absurd hv hrun
        have hr : run = takeRun ((c :: rest).drop markerStr.length) := by
          simpa using h.symm
        refine ⟨0, ?_, ?_⟩
        · rw [matchAtG_zero_cons, hA, hrun']
          rfl
        · simpa using hr
    · rw [if_neg hA] at h
      obtain ⟨i, hm, hr⟩ := ih _ _ h
      refine ⟨i + 1, ?_, ?_⟩
      · rw [matchAtG_cons]; exact hm
      · rw [hdropsh i]; exact hr

lemma matchAtG_true_lt (cs : List Char) (pw : Bool) (i : Nat)
    (h : matchAtG cs pw i = true) : i < cs.length := by
  by_contra hge
  push_neg at hge
  have hdrop : cs.drop i = [] := List.drop_eq_nil_of_le hge
  unfold matchAtG at h
  rw [hdrop, isPrefixOf_nil_false markerStr_ne_nil] at h
  simp at h

lemma matchAtG_eq_false_of_ge (cs : List Char) (pw : Bool) (i : Nat)
    (h : cs.length ≤ i) : matchAtG cs pw i = false := by
  cases hm : matchAtG cs pw i
  · rfl
  · exact absurd (matchAtG_true_lt cs pw i hm) (by omega)

lemma containsMarker_eq_false_iff (cs : List Char) :
    containsMarker cs = false ↔ ∀ i, matchAtG cs false i = false := by
  unfold containsMarker
  constructor
  · intro h i
    by_cases hi : i < cs.length
    · cases hm : matchAtG cs false i
      · rfl
      · have : (List.range cs.length).any (fun j => matchAtG cs false j) = true :=
          List.any_eq_true.mpr ⟨i, List.mem_range.mpr hi, hm⟩
        rw [h] at this
        exact absurd this (by simp)
    · exact matchAtG_eq_false_of_ge cs false i (by omega)
  · intro h
    cases hany : (List.range cs.length).any (fun j => matchAtG cs false j)
    · rfl
    · obtain ⟨i, _, hm⟩ := List.any_eq_true.mp hany
      rw [h i] at hm
      exact absurd hm (by simp)

lemma if_st_execIdx (P : Prop) [Decidable P] (s : St) (e : Effect) :
    (if P then s.addLog e else s).execIdx = s.execIdx := by
  split <;> rfl

lemma is_reproducible_fst (env : Env) (t : FuzzTarget) (tc tp : String) (s : St)
    (h1 : s.fs tc = true)
    (h2 : s.fs tp = true → s.fs (posix_join tp t.target_name) = true) :
    (t.is_reproducible env tc tp s).1 =
      (match firstHit env.execCode s.execIdx REPRODUCE_ATTEMPTS with
       | some _ => Except.ok true
       | none => Except.ok false) := by
  rw [is_reproducible_run env t tc tp s h1 h2]
  cases firstHit env.execCode s.execIdx REPRODUCE_ATTEMPTS <;> rfl

lemma is_reproducible_execIdx (env : Env) (t : FuzzTarget) (tc tp : String) (s : St)
    (h1 : s.fs tc = true)
    (h2 : s.fs tp = true → s.fs (posix_join tp t.target_name) = true) :
    (t.is_reproducible env tc tp s).2.execIdx =
      (match firstHit env.execCode s.execIdx REPRODUCE_ATTEMPTS with
       | some m => s.execIdx + (m + 1)
       | none => s.execIdx + REPRODUCE_ATTEMPTS) := by
  rw [is_reproducible_run env t tc tp s h1 h2]
  cases firstHit env.execCode s.execIdx REPRODUCE_ATTEMPTS with
  | none =>
    show ((if s.fs tp = true then _ else s).advance REPRODUCE_ATTEMPTS).execIdx = _
    rw [St.advance, if_st_execIdx]
  | some m =>
    show ((if s.fs tp = true then _ else s).advance (m + 1)).execIdx = _
    rw [St.advance, if_st_execIdx]

/-- C2: for an existing candidate input (and a chmoddable build directory),
`is_reproducible` makes at most `REPRODUCE_ATTEMPTS = 10` reproduce
invocations, returns `True` right after the first invocation with a
nonzero exit code, and returns `False` after 10 zero exits, never issuing
an 11th invocation.  The number of invocations made is the growth of the
`execIdx` call counter. -/
theorem c2_reproduce_attempts (env : Env) (t : FuzzTarget) (tc tp : String) (s : St)
    (h1 : s.fs tc = true)
    (h2 : s.fs tp = true → s.fs (posix_join tp t.target_name) = true) :
    ((t.is_reproducible env tc tp s).2.execIdx ≤ s.execIdx + REPRODUCE_ATTEMPTS) ∧
    (∀ m, m < REPRODUCE_ATTEMPTS → env.execCode (s.execIdx + m) ≠ 0 →
      (∀ k, k < m → env.execCode (s.execIdx + k) = 0) →
      (t.is_reproducible env tc tp s).1 = Except.ok true ∧
      (t.is_reproducible env tc tp s).2.execIdx = s.execIdx + (m + 1)) ∧
    ((∀ k, k < REPRODUCE_ATTEMPTS → env.execCode (s.execIdx + k) = 0) →
      (t.is_reproducible env tc tp s).1 = Except.ok false ∧
      (t.is_reproducible env tc tp s).2.execIdx = s.execIdx + REPRODUCE_ATTEMPTS) := by
  refine ⟨?_, ?_, ?_⟩
  · rw [is_reproducible_execIdx env t tc tp s h1 h2]
    cases hfh : firstHit env.execCode s.execIdx REPRODUCE_ATTEMPTS with
    | none =>
      show s.execIdx + REPRODUCE_ATTEMPTS ≤ s.execIdx + REPRODUCE_ATTEMPTS
      omega
    | some m =>
      have hm := (firstHit_some env.execCode REPRODUCE_ATTEMPTS s.execIdx m hfh).1
      show s.execIdx + (m + 1) ≤ s.execIdx + REPRODUCE_ATTEMPTS
      omega
  · intro m hm hnz hz
    have hfh : firstHit env.execCode s.execIdx REPRODUCE_ATTEMPTS = some m :=
      firstHit_of_first env.execCode REPRODUCE_ATTEMPTS s.execIdx m hm hnz hz
    rw [is_reproducible_fst env t tc tp s h1 h2,
        is_reproducible_execIdx env t tc tp s h1 h2, hfh]
    exact ⟨rfl, rfl⟩
  · intro hz
    have hfh : firstHit env.execCode s.execIdx REPRODUCE_ATTEMPTS = none :=
      (firstHit_none env.execCode REPRODUCE_ATTEMPTS s.execIdx).mpr hz
    rw [is_reproducible_fst env t tc tp s h1 h2,
        is_reproducible_execIdx env t tc tp s h1 h2, hfh]
    exact ⟨rfl, rfl⟩

/-- Witness for C2 at a concrete environment: the first invocation exits 0,
the second exits 3, so the verifier answers `True` after exactly two
invocations. -/
theorem c2_reproduce_attempts_witness :
    (FuzzTarget.is_reproducible
      { execCode := fun i => if i = 1 then 3 else 0,
        urlopen := fun _ => UrlOpenResult.httpError,
        fetch := fun _ => FetchResult.httpError,
        procTime := 0, procReturncode := 0, procStderr := [] }
      { target_name := "fuzzer", duration := 1, target_path := "/b/fuzzer",
        out_dir := "/out", project_name := none }
      "/tc" "/nodir"
      { fs := fun p => decide (p = "/tc"), execIdx := 0, log := [] }).1
        = Except.ok true ∧
    (FuzzTarget.is_reproducible
      { execCode := fun i => if i = 1 then 3 else 0,
        urlopen := fun _ => UrlOpenResult.httpError,
        fetch := fun _ => FetchResult.httpError,
        procTime := 0, procReturncode := 0, procStderr := [] }
      { target_name := "fuzzer", duration := 1, target_path := "/b/fuzzer",
        out_dir := "/out", project_name := none }
      "/tc" "/nodir"
      { fs := fun p => decide (p = "/tc"), execIdx := 0, log := [] }).2.execIdx
        = 0 + (1 + 1) := by
  exact (c2_reproduce_attempts _ _ "/tc" "/nodir" _ (by decide) (by decide)).2.1
    1 (by decide) (by decide)
    (fun k hk => by
      have hk0 : k = 0 := by omega
      subst hk0
      rfl)

/-- C7: a missing candidate input makes `is_reproducible` return `False`
with no state change (in particular no reproduce invocation and no log
entry); when the input exists and the build directory and target binary
exist, the binary is chmodded first — the chmod log entry precedes every
reproduce entry. -/
theorem c7_preconditions (env : Env) (t : FuzzTarget) (tc tp : String) (s : St) :
    (s.fs tc = false → t.is_reproducible env tc tp s = (Except.ok false, s)) ∧
    (s.fs tc = true → s.fs tp = true →
      s.fs (posix_join tp t.target_name) = true →
      ∃ k, k ≤ REPRODUCE_ATTEMPTS ∧
        (t.is_reproducible env tc tp s).2.log =
          s.log ++ Effect.chmod (posix_join tp t.target_name) S_IRWXO ::
            List.replicate k Effect.reproduce) := by
  constructor
  · intro h
    unfold FuzzTarget.is_reproducible
    rw [if_pos h]
  · intro h1 htp hbin
    rw [is_reproducible_run env t tc tp s h1 (fun _ => hbin)]
    cases hfh : firstHit env.execCode s.execIdx REPRODUCE_ATTEMPTS with
    | some m =>
      refine ⟨m + 1, ?_, ?_⟩
      · have := (firstHit_some env.execCode REPRODUCE_ATTEMPTS s.execIdx m hfh).1
        omega
      · show ((if s.fs tp = true then
            s.addLog (Effect.chmod (posix_join tp t.target_name) S_IRWXO)
          else s).advance (m + 1)).log = _
        rw [if_pos htp]
        show (s.log ++ [Effect.chmod (posix_join tp t.target_name) S_IRWXO])
            ++ List.replicate (m + 1) Effect.reproduce = _
        rw [List.append_assoc, List.singleton_append]
    | none =>
      refine ⟨REPRODUCE_ATTEMPTS, le_refl _, ?_⟩
      show ((if s.fs tp = true then
          s.addLog (Effect.chmod (posix_join tp t.target_name) S_IRWXO)
        else s).advance REPRODUCE_ATTEMPTS).log = _
      rw [if_pos htp]
      show (s.log ++ [Effect.chmod (posix_join tp t.target_name) S_IRWXO])
          ++ List.replicate REPRODUCE_ATTEMPTS Effect.reproduce = _
      rw [List.append_assoc, List.singleton_append]

/-- Witness for C7: a missing input returns `False` untouched; with input,
directory and binary present, the log is one chmod followed by the
reproduce attempts. -/
theorem c7_preconditions_witness :
    (FuzzTarget.is_reproducible
      { execCode := fun _ => 0, urlopen := fun _ => UrlOpenResult.httpError,
        fetch := fun _ => FetchResult.httpError,
        procTime := 0, procReturncode := 0, procStderr := [] }
      { target_name := "fuzzer", duration := 1, target_path := "/b/fuzzer",
        out_dir := "/out", project_name := none }
      "/missing" "/b"
      { fs := fun _ => false, execIdx := 0, log := [] }
        = (Except.ok false, { fs := fun _ => false, execIdx := 0, log := [] })) ∧
    (∃ k, k ≤ REPRODUCE_ATTEMPTS ∧
      (FuzzTarget.is_reproducible
        { execCode := fun _ => 0, urlopen := fun _ => UrlOpenResult.httpError,
          fetch := fun _ => FetchResult.httpError,
          procTime := 0, procReturncode := 0, procStderr := [] }
        { target_name := "fuzzer", duration := 1, target_path := "/b/fuzzer",
          out_dir := "/out", project_name := none }
        "/tc" "/b"
        { fs := fun _ => true, execIdx := 0, log := [] }).2.log =
        [] ++ Effect.chmod (posix_join "/b" "fuzzer") S_IRWXO ::
          List.replicate k Effect.reproduce) := by
  constructor
  · exact (c7_preconditions _ _ "/missing" "/b" _).1 rfl
  · exact (c7_preconditions _ _ "/tc" "/b" _).2 rfl rfl rfl

/-- C10: when the candidate input exists and the build directory exists
but the target binary inside it does not, `is_reproducible` does not
return a boolean: the unconditional `os.chmod` raises, surfacing as a
`FileNotFoundError` for the missing binary path. -/
theorem c10_missing_binary_raises (env : Env) (t : FuzzTarget) (tc tp : String)
    (s : St) (h1 : s.fs tc = true) (h2 : s.fs tp = true)
    (h3 : s.fs (posix_join tp t.target_name) = false) :
    t.is_reproducible env tc tp s =
      (Except.error (PyError.fileNotFound (posix_join tp t.target_name)), s) := by
  unfold FuzzTarget.is_reproducible
  rw [if_neg (by simp [h1]), if_pos h2, if_neg (by simp [h3])]

/-- Witness for C10: directory `/bd` exists, `/bd/fuzzer` does not, and
the call raises instead of returning a boolean. -/
theorem c10_missing_binary_raises_witness :
    posix_join "/bd" "fuzzer" = "/bd/fuzzer" ∧
    FuzzTarget.is_reproducible
      { execCode := fun _ => 0, urlopen := fun _ => UrlOpenResult.httpError,
        fetch := fun _ => FetchResult.httpError,
        procTime := 0, procReturncode := 0, procStderr := [] }
      { target_name := "fuzzer", duration := 1, target_path := "/b/fuzzer",
        out_dir := "/out", project_name := none }
      "/tc" "/bd"
      { fs := fun p => decide (p = "/tc") || decide (p = "/bd"),
        execIdx := 0, log := [] }
      = (Except.error (PyError.fileNotFound (posix_join "/bd" "fuzzer")),
         { fs := fun p => decide (p = "/tc") || decide (p = "/bd"),
           execIdx := 0, log := [] }) := by
  constructor
  · rfl
  · exact c10_missing_binary_raises _ _ "/tc" "/bd" _ rfl rfl rfl

/-- C4: if the diagnostic text contains a match of the marker pattern
`\bTest unit written to \.\/([^\s]+)`, `get_test_case` returns the
captured relative path (the maximal non-whitespace run after the first
marker occurrence) joined onto the target's output directory; if the text
contains no match, it returns `none`. -/
theorem c4_artifact_locator (t : FuzzTarget) (str : String) :
    (containsMarker str.data = false → t.get_test_case str = none) ∧
    (containsMarker str.data = true →
      ∃ i, matchAtG str.data false i = true ∧
        t.get_test_case str = some (posix_join t.out_dir
          (String.mk (takeRun (str.data.drop (i + markerStr.length)))))) := by
  constructor
  · intro hcm
    unfold FuzzTarget.get_test_case
    cases hfm : findMarker str.data false with
    | none => rfl
    | some run =>
      obtain ⟨i, hm, _⟩ := findMarker_some str.data false run hfm
      rw [(containsMarker_eq_false_iff str.data).mp hcm i] at hm
      exact absurd hm (by simp)
  · intro hcm
    cases hfm : findMarker str.data false with
    | none =>
      exfalso
      have hall := findMarker_none str.data false hfm
      have hfalse : containsMarker str.data = false :=
        (containsMarker_eq_false_iff _).mpr hall
      rw [hcm] at hfalse
      exact absurd hfalse (by simp)
    | some run =>
      obtain ⟨i, hm, hr⟩ := findMarker_some str.data false run hfm
      refine ⟨i, hm, ?_⟩
      unfold FuzzTarget.get_test_case
      rw [hfm, hr]

/-- Witness for C4: a text without the marker yields `none`; a crash log
containing `Test unit written to ./crash-abc` yields the path resolved
against the output directory. -/
theorem c4_artifact_locator_witness :
    (FuzzTarget.get_test_case
      { target_name := "fuzzer", duration := 1, target_path := "/b/fuzzer",
        out_dir := "/out", project_name := none }
      "hello world" = none) ∧
    (∃ i, matchAtG ("==1== ERROR\nTest unit written to ./crash-abc\nmore").data
        false i = true ∧
      FuzzTarget.get_test_case
        { target_name := "fuzzer", duration := 1, target_path := "/b/fuzzer",
          out_dir := "/out", project_name := none }
        "==1== ERROR\nTest unit written to ./crash-abc\nmore"
        = some (posix_join "/out" (String.mk (takeRun
            (("==1== ERROR\nTest unit written to ./crash-abc\nmore").data.drop
              (i + markerStr.length)))))) := by
  constructor
  · exact (c4_artifact_locator _ "hello world").1 (by decide)
  · exact (c4_artifact_locator _ "==1== ERROR\nTest unit written to ./crash-abc\nmore").2
      (by decide)

/-- C1: the regression classifier returns exactly the current-build
reproducibility outcome when the project name is falsy; returns `False`
whenever current-build reproduction answered `False`, regardless of
anything else; returns `False` when the baseline build cannot be
obtained; and otherwise answers `True` iff the crash reproduces on the
current build and not on the baseline build (both-reproduce gives
`False`). -/
theorem c1_regression_classifier (env : Env) (t : FuzzTarget) (tc : String) (s : St) :
    (optTruthy t.project_name = false →
      t.check_reproducibility_and_regression env tc s
        = t.is_reproducible env tc (posix_dirname t.target_path) s) ∧
    ((t.is_reproducible env tc (posix_dirname t.target_path) s).1 = Except.ok false →
      (t.check_reproducibility_and_regression env tc s).1 = Except.ok false) ∧
    (optTruthy t.project_name = true →
      (t.is_reproducible env tc (posix_dirname t.target_path) s).1 = Except.ok true →
      (t.download_oss_fuzz_build env
          (t.is_reproducible env tc (posix_dirname t.target_path) s).2).1
        = Except.ok none →
      (t.check_reproducibility_and_regression env tc s).1 = Except.ok false) ∧
    (∀ d b, optTruthy t.project_name = true →
      (t.is_reproducible env tc (posix_dirname t.target_path) s).1 = Except.ok true →
      (t.download_oss_fuzz_build env
          (t.is_reproducible env tc (posix_dirname t.target_path) s).2).1
        = Except.ok (some d) →
      (t.is_reproducible env tc d
          (t.download_oss_fuzz_build env
            (t.is_reproducible env tc (posix_dirname t.target_path) s).2).2).1
        = Except.ok b →
      (t.check_reproducibility_and_regression env tc s).1 = Except.ok (!b)) := by
  refine ⟨?_, ?_, ?_, ?_⟩
  · intro hp
    unfold FuzzTarget.check_reproducibility_and_regression
    split
    · next e s1 heq => exact heq.symm
    · next rip s1 heq =>
        rw [if_pos hp]
        exact heq.symm
  · intro hfalse
    unfold FuzzTarget.check_reproducibility_and_regression
    split
    · next e s1 heq =>
        rw [heq] at hfalse
        simp at hfalse
    · next rip s1 heq =>
        rw [heq] at hfalse
        simp only at hfalse
        have hrip : rip = false := by simpa using hfalse
        subst hrip
        split
        · rfl
        · rw [if_pos rfl]
  · intro hp htrue hdl
    unfold FuzzTarget.check_reproducibility_and_regression
    split
    · next e s1 heq =>
        rw [heq] at htrue
        simp at htrue
    · next rip s1 heq =>
        rw [heq] at htrue hdl
        simp only at htrue hdl
        have hrip : rip = true := by simpa using htrue
        subst hrip
        rw [if_neg (by simp [hp]), if_neg (by simp)]
        split
        · next e s2 heq2 =>
            rw [heq2] at hdl
            simp at hdl
        · rfl
        · next dir s2 heq2 =>
            rw [heq2] at hdl
            simp at hdl
  · intro d b hp htrue hdl hb
    unfold FuzzTarget.check_reproducibility_and_regression
    split
    · next e s1 heq =>
        rw [heq] at htrue
        simp at htrue
    · next rip s1 heq =>
        rw [heq] at htrue hdl hb
        simp only at htrue hdl hb
        have hrip : rip = true := by simpa using htrue
        subst hrip
        rw [if_neg (by simp [hp]), if_neg (by simp)]
        split
        · next e s2 heq2 =>
            rw [heq2] at hdl
            simp at hdl
        · next s2 heq2 =>
            rw [heq2] at hdl
            simp at hdl
        · next dir s2 heq2 =>
            rw [heq2] at hdl hb
            simp only at hdl hb
            have hdir : dir = d := by simpa using hdl
            subst hdir
            split
            · next e s3 heq3 =>
                rw [heq3] at hb
                simp at hb
            · next rio s3 heq3 =>
                rw [heq3] at hb
                simp only at hb
                have hrio : rio = b := by simpa using hb
                subst hrio
                simp

/-- Witness for C1: project `bar`, crash reproduces on the current build
(first reproduce invocation exits 1), the baseline build is cache-hit, and
the crash does not reproduce there (all later invocations exit 0) — the
classifier answers `True`. -/
theorem c1_regression_classifier_witness :
    (FuzzTarget.check_reproducibility_and_regression
      { execCode := fun i => if i = 0 then 1 else 0,
        urlopen := fun _ => UrlOpenResult.httpError,
        fetch := fun _ => FetchResult.httpError,
        procTime := 0, procReturncode := 0, procStderr := [] }
      { target_name := "fuzzer", duration := 1, target_path := "/build/fuzzer",
        out_dir := "/out", project_name := some "bar" }
      "/out/crash-1"
      { fs := fun p => decide (p = "/build") || decide (p = "/build/fuzzer")
          || decide (p = "/out") || decide (p = "/out/crash-1")
          || decide (p = "/out/oss_fuzz_latest/bar")
          || decide (p = "/out/oss_fuzz_latest/bar/fuzzer"),
        execIdx := 0, log := [] }).1 = Except.ok true := by
  exact (c1_regression_classifier
      { execCode := fun i => if i = 0 then 1 else 0,
        urlopen := fun _ => UrlOpenResult.httpError,
        fetch := fun _ => FetchResult.httpError,
        procTime := 0, procReturncode := 0, procStderr := [] }
      { target_name := "fuzzer", duration := 1, target_path := "/build/fuzzer",
        out_dir := "/out", project_name := some "bar" }
      "/out/crash-1"
      { fs := fun p => decide (p = "/build") || decide (p = "/build/fuzzer")
          || decide (p = "/out") || decide (p = "/out/crash-1")
          || decide (p = "/out/oss_fuzz_latest/bar")
          || decide (p = "/out/oss_fuzz_latest/bar/fuzzer"),
        execIdx := 0, log := [] }).2.2.2
    "/out/oss_fuzz_latest/bar" false rfl rfl rfl rfl

/-- C3: provided the corpus fetch returned (rather than raised), `fuzz`
answers `(none, none)` when the child exceeds the `duration + BUFFER_TIME`
wall-clock bound — with no artifact lookup performed — and when the child
exits 0; only a nonzero exit code is treated as a crash, in which case the
decoded stderr text is the diagnostic handed to `get_test_case`, and the
pair is returned iff the regression check answers `True`. -/
theorem c3_fuzz_outcomes (env : Env) (t : FuzzTarget) (s : St) (c : Option String)
    (hc : (t.download_latest_corpus env s).1 = Except.ok c) :
    (t.duration + BUFFER_TIME < env.procTime →
      t.fuzz env s = (Except.ok (none, none), (t.download_latest_corpus env s).2) ∧
      (Effect.artifactLookup ∉ s.log →
        Effect.artifactLookup ∉ (t.fuzz env s).2.log)) ∧
    (¬ t.duration + BUFFER_TIME < env.procTime → env.procReturncode = 0 →
      t.fuzz env s = (Except.ok (none, none), (t.download_latest_corpus env s).2)) ∧
    (∀ estr, ¬ t.duration + BUFFER_TIME < env.procTime → env.procReturncode ≠ 0 →
      decode_ascii env.procStderr = some estr →
      (t.get_test_case estr = none → (t.fuzz env s).1 = Except.ok (none, none)) ∧
      (∀ tcase b, t.get_test_case estr = some tcase →
        (t.check_reproducibility_and_regression env tcase
            ((t.download_latest_corpus env s).2.addLog Effect.artifactLookup)).1
          = Except.ok b →
        (t.fuzz env s).1
          = Except.ok (if b then (some tcase, some estr) else (none, none)))) := by
  unfold FuzzTarget.fuzz
  split
  · next e s1 heq =>
      rw [heq] at hc
      simp at hc
  · next c1 s1 heq =>
      rw [heq]
      refine ⟨?_, ?_, ?_⟩
      · intro htime
        rw [if_pos htime]
        refine ⟨rfl, ?_⟩
        intro hnot
        show Effect.artifactLookup ∉ s1.log
        have hlog := download_latest_corpus_log env t s
        rw [heq] at hlog
        have hlog2 : s1.log = s.log ∨
            s1.log = s.log ++ [Effect.fetchZip t.corpus_url] := hlog
        cases hlog2 with
        | inl h => rw [h]; exact hnot
        | inr h =>
            rw [h]
            intro hmem
            rcases List.mem_append.mp hmem with hm1 | hm2
            · exact hnot hm1
            · simp at hm2
      · intro htime hrc
        rw [if_neg htime, if_pos hrc]
      · intro estr htime hrc hdec
        rw [if_neg htime, if_neg hrc]
        split
        · next heqd =>
            rw [hdec] at heqd
            simp at heqd
        · next err_str heqd =>
            rw [hdec] at heqd
            have herr : err_str = estr := by
              have := heqd
              simp only [Option.some.injEq] at this
              exact this.symm
            subst herr
            constructor
            · intro hgtc
              split
              · rfl
              · next tcase2 heqg =>
                  rw [hgtc] at heqg
                  simp at heqg
            · intro tcase b hgtc hchk
              have hchk2 : (t.check_reproducibility_and_regression env tcase
                  (s1.addLog Effect.artifactLookup)).1 = Except.ok b := hchk
              split
              · next heqg =>
                  rw [hgtc] at heqg
                  simp at heqg
              · next tcase2 heqg =>
                  rw [hgtc] at heqg
                  have htc : tcase2 = tcase := by
                    simp only [Option.some.injEq] at heqg
                    exact heqg.symm
                  subst htc
                  split
                  · next e s3 heqk =>
                      rw [heqk] at hchk2
                      simp at hchk2
                  · next s3 heqk =>
                      rw [heqk] at hchk2
                      have hb : b = true := by simpa using hchk2.symm
                      subst hb
                      rfl
                  · next s3 heqk =>
                      rw [heqk] at hchk2
                      have hb : b = false := by simpa using hchk2.symm
                      subst hb
                      rfl

/-- Witness for C3: duration 5, buffer 10, child needs 100 seconds — the
run times out, `fuzz` returns `(none, none)` and performs no artifact
lookup. -/
theorem c3_fuzz_outcomes_witness :
    (FuzzTarget.fuzz
      { execCode := fun _ => 0, urlopen := fun _ => UrlOpenResult.httpError,
        fetch := fun _ => FetchResult.httpError,
        procTime := 100, procReturncode := 1,
        procStderr := [] }
      { target_name := "fuzzer", duration := 5, target_path := "/b/fuzzer",
        out_dir := "/out", project_name := none }
      { fs := fun _ => false, execIdx := 0, log := [] }
      = (Except.ok (none, none),
         (FuzzTarget.download_latest_corpus
           { execCode := fun _ => 0, urlopen := fun _ => UrlOpenResult.httpError,
             fetch := fun _ => FetchResult.httpError,
             procTime := 100, procReturncode := 1,
             procStderr := [] }
           { target_name := "fuzzer", duration := 5, target_path := "/b/fuzzer",
             out_dir := "/out", project_name := none }
           { fs := fun _ => false, execIdx := 0, log := [] }).2)) ∧
    Effect.artifactLookup ∉
      (FuzzTarget.fuzz
        { execCode := fun _ => 0, urlopen := fun _ => UrlOpenResult.httpError,
          fetch := fun _ => FetchResult.httpError,
          procTime := 100, procReturncode := 1,
          procStderr := [] }
        { target_name := "fuzzer", duration := 5, target_path := "/b/fuzzer",
          out_dir := "/out", project_name := none }
        { fs := fun _ => false, execIdx := 0, log := [] }).2.log := by
  have h := (c3_fuzz_outcomes
      { execCode := fun _ => 0, urlopen := fun _ => UrlOpenResult.httpError,
        fetch := fun _ => FetchResult.httpError,
        procTime := 100, procReturncode := 1,
        procStderr := [] }
      { target_name := "fuzzer", duration := 5, target_path := "/b/fuzzer",
        out_dir := "/out", project_name := none }
      { fs := fun _ => false, execIdx := 0, log := [] }
      none rfl).1 (by decide)
  exact ⟨h.1, h.2 (by simp)⟩

/-- C9: a missing output (resp. destination) directory makes each
download operation return `none` with the state untouched — the directory
is not created and no fetch is attempted — whereas when the output
directory exists the build and corpus subdirectories beneath it are
created on demand. -/
theorem c9_out_dir_precondition (env : Env) (t : FuzzTarget) (u d : String) (s : St) :
    (s.fs t.out_dir = false → t.download_oss_fuzz_build env s = (Except.ok none, s)) ∧
    (s.fs t.out_dir = false → t.download_latest_corpus env s = (Except.ok none, s)) ∧
    (s.fs d = false → download_and_unpack_zip env u d s = (Except.ok none, s)) ∧
    (optTruthy t.project_name = true → s.fs t.out_dir = true →
      (t.download_latest_corpus env s).2.fs t.corpus_dir = true) ∧
    (optTruthy t.project_name = true → s.fs t.out_dir = true →
      s.fs (posix_join t.build_dir t.target_name) = false →
      (t.download_oss_fuzz_build env s).2.fs t.build_dir = true) := by
  refine ⟨?_, ?_, ?_, ?_, ?_⟩
  · intro h
    unfold FuzzTarget.download_oss_fuzz_build
    rw [if_pos h]
  · intro h
    unfold FuzzTarget.download_latest_corpus
    split
    · rfl
    · rfl
  · intro h
    unfold download_and_unpack_zip
    rw [if_pos h]
  · intro hp ho
    unfold FuzzTarget.download_latest_corpus
    rw [if_neg (by simp [hp]), if_neg (by simp [ho])]
    apply download_and_unpack_zip_mono
    simp [St.mkdir]
  · intro hp ho hm
    unfold FuzzTarget.download_oss_fuzz_build
    rw [if_neg (by simp [ho]), if_neg (by simp [hp]), if_neg (by simp [hm])]
    split
    · next e s2 heq =>
        have hfs := get_lastest_build_version_fs env t (s.mkdir t.build_dir)
        rw [heq] at hfs
        show s2.fs t.build_dir = true
        rw [show s2.fs = (s.mkdir t.build_dir).fs from hfs]
        simp [St.mkdir]
    · next latest s2 heq =>
        have hfs := get_lastest_build_version_fs env t (s.mkdir t.build_dir)
        rw [heq] at hfs
        split
        · show s2.fs t.build_dir = true
          rw [show s2.fs = (s.mkdir t.build_dir).fs from hfs]
          simp [St.mkdir]
        · apply download_and_unpack_zip_mono
          rw [show s2.fs = (s.mkdir t.build_dir).fs from hfs]
          simp [St.mkdir]

/-- Witness for C9: with no `/out`, all three operations return `none`
without touching the state; with `/out` present and project `bar`, the
corpus and build cache subdirectories get created. -/
theorem c9_out_dir_precondition_witness :
    (FuzzTarget.download_oss_fuzz_build
      { execCode := fun _ => 0, urlopen := fun _ => UrlOpenResult.httpError,
        fetch := fun _ => FetchResult.httpError,
        procTime := 0, procReturncode := 0, procStderr := [] }
      { target_name := "fuzzer", duration := 1, target_path := "/b/fuzzer",
        out_dir := "/out", project_name := some "bar" }
      { fs := fun _ => false, execIdx := 0, log := [] }
      = (Except.ok none, { fs := fun _ => false, execIdx := 0, log := [] })) ∧
    (FuzzTarget.download_latest_corpus
      { execCode := fun _ => 0, urlopen := fun _ => UrlOpenResult.httpError,
        fetch := fun _ => FetchResult.httpError,
        procTime := 0, procReturncode := 0, procStderr := [] }
      { target_name := "fuzzer", duration := 1, target_path := "/b/fuzzer",
        out_dir := "/out", project_name := some "bar" }
      { fs := fun _ => false, execIdx := 0, log := [] }
      = (Except.ok none, { fs := fun _ => false, execIdx := 0, log := [] })) ∧
    (download_and_unpack_zip
      { execCode := fun _ => 0, urlopen := fun _ => UrlOpenResult.httpError,
        fetch := fun _ => FetchResult.httpError,
        procTime := 0, procReturncode := 0, procStderr := [] }
      "http://x/a.zip" "/dest"
      { fs := fun _ => false, execIdx := 0, log := [] }
      = (Except.ok none, { fs := fun _ => false, execIdx := 0, log := [] })) ∧
    ((FuzzTarget.download_latest_corpus
      { execCode := fun _ => 0, urlopen := fun _ => UrlOpenResult.httpError,
        fetch := fun _ => FetchResult.httpError,
        procTime := 0, procReturncode := 0, procStderr := [] }
      { target_name := "fuzzer", duration := 1, target_path := "/b/fuzzer",
        out_dir := "/out", project_name := some "bar" }
      { fs := fun p => decide (p = "/out"), execIdx := 0, log := [] }).2.fs
        (FuzzTarget.corpus_dir
          { target_name := "fuzzer", duration := 1, target_path := "/b/fuzzer",
            out_dir := "/out", project_name := some "bar" }) = true) ∧
    ((FuzzTarget.download_oss_fuzz_build
      { execCode := fun _ => 0, urlopen := fun _ => UrlOpenResult.httpError,
        fetch := fun _ => FetchResult.httpError,
        procTime := 0, procReturncode := 0, procStderr := [] }
      { target_name := "fuzzer", duration := 1, target_path := "/b/fuzzer",
        out_dir := "/out", project_name := some "bar" }
      { fs := fun p => decide (p = "/out"), execIdx := 0, log := [] }).2.fs
        (FuzzTarget.build_dir
          { target_name := "fuzzer", duration := 1, target_path := "/b/fuzzer",
            out_dir := "/out", project_name := some "bar" }) = true) := by
  refine ⟨?_, ?_, ?_, ?_, ?_⟩
  · exact (c9_out_dir_precondition _ _ "http://x/a.zip" "/dest" _).1 rfl
  · exact (c9_out_dir_precondition _ _ "http://x/a.zip" "/dest" _).2.1 rfl
  · exact (c9_out_dir_precondition _
      { target_name := "fuzzer", duration := 1, target_path := "/b/fuzzer",
        out_dir := "/out", project_name := some "bar" }
      "http://x/a.zip" "/dest" _).2.2.1 rfl
  · exact (c9_out_dir_precondition _ _ "http://x/a.zip" "/dest" _).2.2.2.1 rfl rfl
  · exact (c9_out_dir_precondition _ _ "http://x/a.zip" "/dest" _).2.2.2.2 rfl rfl rfl

/-- C8: the corpus fetch uses the project-qualified target name in its
URL: a target name not already starting with `<project>_` is prefixed
with it, a name already carrying the prefix is used unchanged — the
fetched URL recorded in the log is built from exactly that name. -/
theorem c8_corpus_qualification (env : Env) (t : FuzzTarget) (s : St)
    (hp : optTruthy t.project_name = true) (ho : s.fs t.out_dir = true) :
    (t.download_latest_corpus env s).2.log = s.log ++
      [Effect.fetchZip (url_join [GCS_BASE_URL,
        optStr t.project_name ++ "-backup.clusterfuzz-external.appspot.com/corpus/libFuzzer/",
        if py_startswith t.target_name (optStr t.project_name ++ "_") then t.target_name
        else (optStr t.project_name ++ "_") ++ t.target_name,
        CORPUS_ZIP_NAME])] := by
  unfold FuzzTarget.download_latest_corpus
  rw [if_neg (by simp [hp]), if_neg (by simp [ho])]
  unfold download_and_unpack_zip
  rw [if_neg (by simp [St.mkdir])]
  cases env.fetch t.corpus_url <;>
    simp [St.addLog, St.addFiles, St.mkdir, FuzzTarget.corpus_url,
      project_qualified_name]

/-- Witness for C8: target `foo` under project `bar` fetches the corpus
for `bar_foo`; target `bar_foo` is used unchanged. -/
theorem c8_corpus_qualification_witness :
    ((FuzzTarget.download_latest_corpus
      { execCode := fun _ => 0, urlopen := fun _ => UrlOpenResult.httpError,
        fetch := fun _ => FetchResult.httpError,
        procTime := 0, procReturncode := 0, procStderr := [] }
      { target_name := "foo", duration := 1, target_path := "/b/foo",
        out_dir := "/out", project_name := some "bar" }
      { fs := fun p => decide (p = "/out"), execIdx := 0, log := [] }).2.log
      = [Effect.fetchZip
          "https://storage.googleapis.com/bar-backup.clusterfuzz-external.appspot.com/corpus/libFuzzer/bar_foo/public.zip"]) ∧
    ((FuzzTarget.download_latest_corpus
      { execCode := fun _ => 0, urlopen := fun _ => UrlOpenResult.httpError,
        fetch := fun _ => FetchResult.httpError,
        procTime := 0, procReturncode := 0, procStderr := [] }
      { target_name := "bar_foo", duration := 1, target_path := "/b/bar_foo",
        out_dir := "/out", project_name := some "bar" }
      { fs := fun p => decide (p = "/out"), execIdx := 0, log := [] }).2.log
      = [Effect.fetchZip
          "https://storage.googleapis.com/bar-backup.clusterfuzz-external.appspot.com/corpus/libFuzzer/bar_foo/public.zip"]) := by
  constructor
  · rw [c8_corpus_qualification
      { execCode := fun _ => 0, urlopen := fun _ => UrlOpenResult.httpError,
        fetch := fun _ => FetchResult.httpError,
        procTime := 0, procReturncode := 0, procStderr := [] }
      { target_name := "foo", duration := 1, target_path := "/b/foo",
        out_dir := "/out", project_name := some "bar" }
      { fs := fun p => decide (p = "/out"), execIdx := 0, log := [] }
      rfl rfl]
    rfl
  · rw [c8_corpus_qualification
      { execCode := fun _ => 0, urlopen := fun _ => UrlOpenResult.httpError,
        fetch := fun _ => FetchResult.httpError,
        procTime := 0, procReturncode := 0, procStderr := [] }
      { target_name := "bar_foo", duration := 1, target_path := "/b/bar_foo",
        out_dir := "/out", project_name := some "bar" }
      { fs := fun p => decide (p = "/out"), execIdx := 0, log := [] }
      rfl rfl]
    rfl

/-- Counterexample to C6 as stated: the cache-hit test is the presence of
the target binary, not the success of the previous call.  Here the
fetched archive does not contain the target binary, so the first call
succeeds (one fetch) and yet the second call fetches again (two fetches
in total) instead of hitting the cache. -/
theorem c6_idempotent_cache_counterexample :
    ((FuzzTarget.download_oss_fuzz_build
      { execCode := fun _ => 0, urlopen := fun _ => UrlOpenResult.ok [118, 49],
        fetch := fun _ => FetchResult.ok ["someother"],
        procTime := 0, procReturncode := 0, procStderr := [] }
      { target_name := "fuzzer", duration := 1, target_path := "/src/fuzzer",
        out_dir := "/out", project_name := some "bar" }
      { fs := fun p => decide (p = "/out"), execIdx := 0, log := [] }).1
      = Except.ok (some "/out/oss_fuzz_latest/bar")) ∧
    ((FuzzTarget.download_oss_fuzz_build
      { execCode := fun _ => 0, urlopen := fun _ => UrlOpenResult.ok [118, 49],
        fetch := fun _ => FetchResult.ok ["someother"],
        procTime := 0, procReturncode := 0, procStderr := [] }
      { target_name := "fuzzer", duration := 1, target_path := "/src/fuzzer",
        out_dir := "/out", project_name := some "bar" }
      { fs := fun p => decide (p = "/out"), execIdx := 0, log := [] }).2.log.countP
        (fun e => match e with | Effect.fetchZip _ => true | _ => false) = 1) ∧
    ((FuzzTarget.download_oss_fuzz_build
      { execCode := fun _ => 0, urlopen := fun _ => UrlOpenResult.ok [118, 49],
        fetch := fun _ => FetchResult.ok ["someother"],
        procTime := 0, procReturncode := 0, procStderr := [] }
      { target_name := "fuzzer", duration := 1, target_path := "/src/fuzzer",
        out_dir := "/out", project_name := some "bar" }
      (FuzzTarget.download_oss_fuzz_build
        { execCode := fun _ => 0, urlopen := fun _ => UrlOpenResult.ok [118, 49],
          fetch := fun _ => FetchResult.ok ["someother"],
          procTime := 0, procReturncode := 0, procStderr := [] }
        { target_name := "fuzzer", duration := 1, target_path := "/src/fuzzer",
          out_dir := "/out", project_name := some "bar" }
        { fs := fun p => decide (p = "/out"), execIdx := 0, log := [] }).2).2.log.countP
        (fun e => match e with | Effect.fetchZip _ => true | _ => false) = 2) := by
  refine ⟨rfl, rfl, rfl⟩

/-- C6 (amended): after a first `download_oss_fuzz_build` call succeeds
AND leaves the target binary present in the cache directory
`(out_dir, "oss_fuzz_latest", project)` — which holds whenever the
fetched archive contained the binary, and is the code's cache-hit test —
a second call performs no version lookup and no fetch (the state,
including the effect log, is unchanged) and returns the same
directory. -/
theorem c6_amended_idempotent_cache (env : Env) (t : FuzzTarget) (s : St)
    (d : String) (s1 : St)
    (h1 : t.download_oss_fuzz_build env s = (Except.ok (some d), s1))
    (h2 : s1.fs (posix_join t.build_dir t.target_name) = true) :
    t.download_oss_fuzz_build env s1 = (Except.ok (some d), s1) := by
  obtain ⟨hd, hp, hout, hmono⟩ := download_oss_fuzz_build_success env t s d s1 h1
  subst hd
  unfold FuzzTarget.download_oss_fuzz_build
  rw [if_neg (by simp [hmono t.out_dir hout]), if_neg (by simp [hp]), if_pos h2]

/-- Witness for C6 (amended): the fetched archive does contain the
binary, so the second call is a pure cache hit returning the same
directory with the state untouched. -/
theorem c6_amended_idempotent_cache_witness :
    FuzzTarget.download_oss_fuzz_build
      { execCode := fun _ => 0, urlopen := fun _ => UrlOpenResult.ok [118, 49],
        fetch := fun _ => FetchResult.ok ["fuzzer"],
        procTime := 0, procReturncode := 0, procStderr := [] }
      { target_name := "fuzzer", duration := 1, target_path := "/src/fuzzer",
        out_dir := "/out", project_name := some "bar" }
      (FuzzTarget.download_oss_fuzz_build
        { execCode := fun _ => 0, urlopen := fun _ => UrlOpenResult.ok [118, 49],
          fetch := fun _ => FetchResult.ok ["fuzzer"],
          procTime := 0, procReturncode := 0, procStderr := [] }
        { target_name := "fuzzer", duration := 1, target_path := "/src/fuzzer",
          out_dir := "/out", project_name := some "bar" }
        { fs := fun p => decide (p = "/out"), execIdx := 0, log := [] }).2
      = (Except.ok (some "/out/oss_fuzz_latest/bar"),
         (FuzzTarget.download_oss_fuzz_build
           { execCode := fun _ => 0, urlopen := fun _ => UrlOpenResult.ok [118, 49],
             fetch := fun _ => FetchResult.ok ["fuzzer"],
             procTime := 0, procReturncode := 0, procStderr := [] }
           { target_name := "fuzzer", duration := 1, target_path := "/src/fuzzer",
             out_dir := "/out", project_name := some "bar" }
           { fs := fun p => decide (p = "/out"), execIdx := 0, log := [] }).2) := by
  exact c6_amended_idempotent_cache
    { execCode := fun _ => 0, urlopen := fun _ => UrlOpenResult.ok [118, 49],
      fetch := fun _ => FetchResult.ok ["fuzzer"],
      procTime := 0, procReturncode := 0, procStderr := [] }
    { target_name := "fuzzer", duration := 1, target_path := "/src/fuzzer",
      out_dir := "/out", project_name := some "bar" }
    { fs := fun p => decide (p = "/out"), execIdx := 0, log := [] }
    "/out/oss_fuzz_latest/bar"
    (FuzzTarget.download_oss_fuzz_build
      { execCode := fun _ => 0, urlopen := fun _ => UrlOpenResult.ok [118, 49],
        fetch := fun _ => FetchResult.ok ["fuzzer"],
        procTime := 0, procReturncode := 0, procStderr := [] }
      { target_name := "fuzzer", duration := 1, target_path := "/src/fuzzer",
        out_dir := "/out", project_name := some "bar" }
      { fs := fun p => decide (p = "/out"), execIdx := 0, log := [] }).2
    rfl rfl

/-- Counterexample to C5 as stated: exceptions can escape the core.  A
crash whose stderr contains a non-ASCII byte (here 200) makes
`err.decode('ascii')` in `fuzz` raise an uncaught `UnicodeDecodeError`
instead of returning an optional value. -/
theorem c5_no_escape_counterexample :
    (FuzzTarget.fuzz
      { execCode := fun _ => 0, urlopen := fun _ => UrlOpenResult.httpError,
        fetch := fun _ => FetchResult.httpError,
        procTime := 0, procReturncode := 1, procStderr := [200] }
      { target_name := "fuzzer", duration := 5, target_path := "/out/fuzzer",
        out_dir := "/out", project_name := none }
      { fs := fun _ => false, execIdx := 0, log := [] }).1
      = Except.error PyError.unicodeDecode := rfl

/-- The second escape route of the correction to C5: a version lookup
answering HTTP 200 with a non-UTF-8 body (here the single byte 255)
makes `response.read().decode()` raise an uncaught `UnicodeDecodeError`
that crosses `download_oss_fuzz_build`'s boundary. -/
lemma download_oss_fuzz_build_decode_escape :
    (FuzzTarget.download_oss_fuzz_build
      { execCode := fun _ => 0, urlopen := fun _ => UrlOpenResult.ok [255],
        fetch := fun _ => FetchResult.httpError,
        procTime := 0, procReturncode := 0, procStderr := [] }
      { target_name := "fuzzer", duration := 1, target_path := "/b/fuzzer",
        out_dir := "/out", project_name := some "bar" }
      { fs := fun p => decide (p = "/out"), execIdx := 0, log := [] }).1
      = Except.error PyError.unicodeDecode := rfl

/-- C5 (amended): no exception escapes the listed operations provided
that (i) no non-HTTP transport error occurs — `urlopen`/`urlretrieve`
raise only `HTTPError`, which is caught, while other `URLError`s are
uncaught; (ii) every version-response body is valid UTF-8 — the
`response.read().decode()` of `get_lastest_build_version` sits outside
the `try` and raises an uncaught `UnicodeDecodeError` otherwise;
(iii) the child's stderr is ASCII-decodable; (iv) the current build's
target binary exists on disk; (v) every successfully fetched archive
contains the target binary (so the unconditional chmod in
`is_reproducible` cannot hit a missing file); the standalone
`is_reproducible` conjunct instead assumes the binary exists whenever
the probed directory does.  Under these assumptions every operation
returns a value. -/
theorem c5_amended_no_escape (env : Env) (t : FuzzTarget) (s : St)
    (h1 : ∀ u, env.urlopen u ≠ UrlOpenResult.urlError)
    (h1b : ∀ u body, env.urlopen u = UrlOpenResult.ok body →
      utf8_decode body ≠ none)
    (h2 : ∀ u, env.fetch u ≠ FetchResult.urlError)
    (h3 : env.procStderr.all (fun b => decide (b < 128)) = true)
    (h4 : s.fs (posix_join (posix_dirname t.target_path) t.target_name) = true)
    (h5 : ∀ u ms, env.fetch u = FetchResult.ok ms → t.target_name ∈ ms) :
    (∀ u d, ∃ v, (download_and_unpack_zip env u d s).1 = Except.ok v) ∧
    (∃ v, (t.download_latest_corpus env s).1 = Except.ok v) ∧
    (∃ v, (t.download_oss_fuzz_build env s).1 = Except.ok v) ∧
    (∀ tc tp, (s.fs tp = true → s.fs (posix_join tp t.target_name) = true) →
      ∃ b, (t.is_reproducible env tc tp s).1 = Except.ok b) ∧
    (∀ tc, ∃ b, (t.check_reproducibility_and_regression env tc s).1 = Except.ok b) ∧
    (∃ v, (t.fuzz env s).1 = Except.ok v) := by
  refine ⟨?_, ?_, ?_, ?_, ?_, ?_⟩
  · intro u d
    exact download_and_unpack_zip_ok env h2 u d s
  · exact download_latest_corpus_ok env t h2 s
  · exact download_oss_fuzz_build_ok env t h1 h1b h2 s
  · intro tc tp hsafe
    exact is_reproducible_ok env t tc tp s hsafe
  · intro tc
    exact check_reproducibility_ok env t tc s h1 h1b h2 h5 h4
  · exact fuzz_ok env t s h1 h1b h2 h3 h5 h4

/-- Witness for C5 (amended): a world with only HTTP-level transport
failures (so the version-body condition holds vacuously), an ASCII
(empty) stderr and the current binary on disk — every operation returns
a value. -/
theorem c5_amended_no_escape_witness :
    ∃ v, (FuzzTarget.fuzz
      { execCode := fun _ => 0, urlopen := fun _ => UrlOpenResult.httpError,
        fetch := fun _ => FetchResult.httpError,
        procTime := 0, procReturncode := 1, procStderr := [] }
      { target_name := "fuzzer", duration := 5, target_path := "/out/fuzzer",
        out_dir := "/out", project_name := some "bar" }
      { fs := fun p => decide (p = "/out") || decide (p = "/out/fuzzer"),
        execIdx := 0, log := [] }).1 = Except.ok v := by
  exact (c5_amended_no_escape
    { execCode := fun _ => 0, urlopen := fun _ => UrlOpenResult.httpError,
      fetch := fun _ => FetchResult.httpError,
      procTime := 0, procReturncode := 1, procStderr := [] }
    { target_name := "fuzzer", duration := 5, target_path := "/out/fuzzer",
      out_dir := "/out", project_name := some "bar" }
    { fs := fun p => decide (p = "/out") || decide (p = "/out/fuzzer"),
      execIdx := 0, log := [] }
    (fun u h => UrlOpenResult.noConfusion h)
    (fun u body h => UrlOpenResult.noConfusion h)
    (fun u h => FetchResult.noConfusion h)
    rfl rfl
    (fun u ms h => FetchResult.noConfusion h)).2.2.2.2.2
